import Mathlib

/-!
Verification of the storage abstraction layer: pathname utilities
(`validatePathname`, `extractPathnameFromUrl`, the base64 codecs), the
bucket namespace registry (`buildPathname`), the Vercel blob provider
operations (`download`, `copy`, `delete`, `deleteMany`, `exists`, `head`)
over an abstract backend object store, and the lazily-initialized
process-wide storage handle (`getStorage`).

Strings are modelled by Lean `String` (a wrapper around `List Char`);
byte buffers by `List Nat` with every entry below 256.  JavaScript
behavior (`String.prototype.includes`, `split`, `startsWith`, `slice`,
`decodeURIComponent`, the two regular expressions of the source) is
embedded by explicit executable functions over character lists.
-/

/-- Decidable equality for `Except` results, used to evaluate the
provider and utility functions on concrete inputs. -/
instance {ε α : Type} [DecidableEq ε] [DecidableEq α] : DecidableEq (Except ε α) := fun a b =>
  match a, b with
  | .ok x, .ok y =>
    if h : x = y then isTrue (by rw [h]) else
      isFalse (by intro hc; injection hc; contradiction)
  | .ok _, .error _ => isFalse (by intro hc; exact Except.noConfusion hc)
  | .error _, .ok _ => isFalse (by intro hc; exact Except.noConfusion hc)
  | .error e, .error f =>
    if h : e = f then isTrue (by rw [h]) else
      isFalse (by intro hc; injection hc; contradiction)

/-- ASCII lower-casing of one character (the effect of JavaScript
`toLowerCase` on the ASCII range; characters outside A-Z are unchanged). -/
def lowerChar (c : Char) : Char :=
  match c with
  | 'A' => 'a' | 'B' => 'b' | 'C' => 'c' | 'D' => 'd' | 'E' => 'e' | 'F' => 'f'
  | 'G' => 'g' | 'H' => 'h' | 'I' => 'i' | 'J' => 'j' | 'K' => 'k' | 'L' => 'l'
  | 'M' => 'm' | 'N' => 'n' | 'O' => 'o' | 'P' => 'p' | 'Q' => 'q' | 'R' => 'r'
  | 'S' => 's' | 'T' => 't' | 'U' => 'u' | 'V' => 'v' | 'W' => 'w' | 'X' => 'x'
  | 'Y' => 'y' | 'Z' => 'z'
  | c => c

/-- JavaScript `url.toLowerCase()` restricted to ASCII case mapping. -/
def asciiLower (s : String) : String := String.mk (s.data.map lowerChar)

/-- Contiguous-substring test on character lists: JavaScript
`haystack.includes(needle)`. -/
def hasSubstr : List Char → List Char → Bool
  | [], pat => pat.isEmpty
  | c :: t, pat => pat.isPrefixOf (c :: t) || hasSubstr t pat

/-- JavaScript `s.includes(pat)`. -/
def strContains (s pat : String) : Bool := hasSubstr s.data pat.data

/-- JavaScript `s.split(sep)` for a one-character separator. -/
def splitOnChar (sep : Char) : List Char → List (List Char)
  | [] => [[]]
  | c :: t =>
    if c = sep then [] :: splitOnChar sep t
    else
      match splitOnChar sep t with
      | h :: r => (c :: h) :: r
      | [] => [[c]]

/-- The distinct `throw new Error(...)` sites of the pathname utilities,
one constructor per message:
`invalidInput` = "Invalid input: URL must be a non-empty string" (top guard of
`extractPathnameFromUrl`); `invalidPathnameEmpty` = "Invalid pathname: must be
a non-empty string"; `pathTraversal` = "Invalid pathname: path traversal
detected"; `nullByte` = "Invalid pathname: null byte detected";
`untrustedHost` = "Invalid URL: Not a valid storage endpoint";
`malformedInput` = "Invalid input: Malformed URL detected";
`suspiciousPattern` = "Invalid input: Domain-like pattern detected in
pathname"; `emptyPathname` = "Invalid pathname: cannot be empty";
`uriError` = the `URIError` thrown by `decodeURIComponent`. -/
inductive StorageErr : Type
  | invalidInput
  | invalidPathnameEmpty
  | pathTraversal
  | nullByte
  | untrustedHost
  | malformedInput
  | suspiciousPattern
  | emptyPathname
  | uriError
deriving DecidableEq

/-- `validatePathname` from `storage/src/utils.ts`: rejects the empty
string, the substrings "../" and "..\", and null bytes; otherwise returns
with no effect (the function is pure; the `typeof` check is subsumed by
the typed embedding). -/
def validatePathname (pathname : String) : Except StorageErr Unit :=
  if pathname = "" then .error .invalidPathnameEmpty
  else if strContains pathname "../" || strContains pathname "..\\" then .error .pathTraversal
  else if strContains pathname "\x00" then .error .nullByte
  else .ok ()

/-- The outcome of JavaScript `new URL(url)` when it succeeds: the `host`
component (including any port) and the `pathname` component exactly as the
URL parser produces them.  The parser itself is external to the repository,
so `extractPathnameFromUrl` receives its outcome as an explicit argument. -/
structure ParsedURL where
  host : String
  pathname : String
deriving DecidableEq

/-- Value of one hexadecimal digit, `none` for a non-hex character. -/
def hexDigitVal (c : Char) : Option Nat :=
  if '0' ≤ c ∧ c ≤ '9' then some (c.toNat - 48)
  else if 'a' ≤ c ∧ c ≤ 'f' then some (c.toNat - 87)
  else if 'A' ≤ c ∧ c ≤ 'F' then some (c.toNat - 55)
  else none

/-- JavaScript `decodeURIComponent`: percent-escapes are decoded as UTF-8
(multi-byte sequences must be built entirely from consecutive escapes, with
strict checks on continuation bytes, overlong forms, surrogates and range);
other characters pass through; `none` models the thrown `URIError`. -/
def percentDecode : List Char → Option (List Char)
  | [] => some []
  | '%' :: h1 :: h2 :: rest =>
    match hexDigitVal h1, hexDigitVal h2 with
    | some a, some b =>
      let byte := a * 16 + b
      if byte < 0x80 then (percentDecode rest).map (Char.ofNat byte :: ·)
      else if 0xC2 ≤ byte ∧ byte ≤ 0xDF then
        match rest with
        | '%' :: h3 :: h4 :: rest2 =>
          match hexDigitVal h3, hexDigitVal h4 with
          | some c3, some d3 =>
            let b2 := c3 * 16 + d3
            if 0x80 ≤ b2 ∧ b2 ≤ 0xBF then
              (percentDecode rest2).map (Char.ofNat ((byte - 0xC0) * 64 + (b2 - 0x80)) :: ·)
            else none
          | _, _ => none
        | _ => none
      else if 0xE0 ≤ byte ∧ byte ≤ 0xEF then
        match rest with
        | '%' :: h3 :: h4 :: '%' :: h5 :: h6 :: rest2 =>
          match hexDigitVal h3, hexDigitVal h4, hexDigitVal h5, hexDigitVal h6 with
          | some c3, some d3, some c4, some d4 =>
            let b2 := c3 * 16 + d3
            let b3 := c4 * 16 + d4
            let cp := (byte - 0xE0) * 4096 + (b2 - 0x80) * 64 + (b3 - 0x80)
            if 0x80 ≤ b2 ∧ b2 ≤ 0xBF ∧ 0x80 ≤ b3 ∧ b3 ≤ 0xBF ∧ 0x800 ≤ cp ∧
                ¬(0xD800 ≤ cp ∧ cp ≤ 0xDFFF) then
              (percentDecode rest2).map (Char.ofNat cp :: ·)
            else none
          | _, _, _, _ => none
        | _ => none
      else if 0xF0 ≤ byte ∧ byte ≤ 0xF4 then
        match rest with
        | '%' :: h3 :: h4 :: '%' :: h5 :: h6 :: '%' :: h7 :: h8 :: rest2 =>
          match hexDigitVal h3, hexDigitVal h4, hexDigitVal h5, hexDigitVal h6,
              hexDigitVal h7, hexDigitVal h8 with
          | some c3, some d3, some c4, some d4, some c5, some d5 =>
            let b2 := c3 * 16 + d3
            let b3 := c4 * 16 + d4
            let b4 := c5 * 16 + d5
            let cp := (byte - 0xF0) * 262144 + (b2 - 0x80) * 4096 + (b3 - 0x80) * 64 + (b4 - 0x80)
            if 0x80 ≤ b2 ∧ b2 ≤ 0xBF ∧ 0x80 ≤ b3 ∧ b3 ≤ 0xBF ∧ 0x80 ≤ b4 ∧ b4 ≤ 0xBF ∧
                0x10000 ≤ cp ∧ cp ≤ 0x10FFFF then
              (percentDecode rest2).map (Char.ofNat cp :: ·)
            else none
          | _, _, _, _, _, _ => none
        | _ => none
      else none
    | _, _ => none
  | '%' :: _ => none
  | c :: rest => (percentDecode rest).map (c :: ·)

/-- ASCII letter or digit: the character class `[a-z0-9]` of the source's
domain regular expression under its `/i` flag. -/
def isAlnumA (c : Char) : Bool := c.isAlpha || c.isDigit

/-- One DNS label of the domain pattern: `[a-z0-9]([a-z0-9-]*[a-z0-9])?`
(case-insensitive): nonempty, alphanumeric first and last character,
hyphens allowed inside. -/
def isLabel : List Char → Bool
  | [] => false
  | c :: t =>
    isAlnumA c && isAlnumA ((c :: t).getLastD 'a') &&
      (c :: t).all (fun x => isAlnumA x || x == '-')

/-- Trailing component of the domain pattern: `[a-z]{2,}` (case-insensitive). -/
def isTld (l : List Char) : Bool := decide (2 ≤ l.length) && l.all Char.isAlpha

/-- A dot-separated domain name per the source pattern
`[a-z0-9]([a-z0-9-]*[a-z0-9])?(\.[a-z0-9]([a-z0-9-]*[a-z0-9])?)*\.[a-z]\x7b2,\x7d`:
at least two components, all but the last valid labels, the last a TLD. -/
def isDomainName (d : List Char) : Bool :=
  let parts := splitOnChar '.' d
  decide (2 ≤ parts.length) && parts.dropLast.all isLabel && isTld (parts.getLastD [])

/-- `domainPattern.test(url)` from `extractPathnameFromUrl`: the anchored
pattern requires a domain name followed by `/` or the end of the string,
and since domain characters exclude `/` this holds exactly when the prefix
of `url` before its first `/` is a domain name. -/
def domainLike (url : String) : Bool :=
  isDomainName (url.data.takeWhile (fun c => c != '/'))

/-- Word character of the S3 host pattern: `\w`, that is `[A-Za-z0-9_]`. -/
def isWordC (c : Char) : Bool := c.isAlpha || c.isDigit || c == '_'

/-- Optional leading group `([\w.-]+\.)?` of the S3 host pattern: empty, or
at least two characters from `[\w.-]` with the last being a dot. -/
def prePartOk (l : List Char) : Bool :=
  l.isEmpty ||
    (decide (2 ≤ l.length) && l.getLastD 'a' == '.' &&
      l.all (fun c => isWordC c || c == '.' || c == '-'))

/-- Middle alternation `(s3|s3-[\w-]+|s3-website[\w.-]+|s3-accesspoint|s3-control)`
of the S3 host pattern. -/
def midPartOk (l : List Char) : Bool :=
  l == "s3".data ||
  ("s3-website".data.isPrefixOf l &&
    (let r := l.drop 10
     !r.isEmpty && r.all (fun c => isWordC c || c == '.' || c == '-'))) ||
  ("s3-".data.isPrefixOf l &&
    (let r := l.drop 3
     !r.isEmpty && r.all (fun c => isWordC c || c == '-'))) ||
  l == "s3-accesspoint".data || l == "s3-control".data

/-- Optional trailing group `(\.[\w-]+)?` of the S3 host pattern. -/
def optPartOk (l : List Char) : Bool :=
  match l with
  | [] => true
  | '.' :: t => !t.isEmpty && t.all (fun c => isWordC c || c == '-')
  | _ => false

/-- The S3 host regular expression
`^([\w.-]+\.)?(s3|s3-[\w-]+|s3-website[\w.-]+|s3-accesspoint|s3-control)(\.[\w-]+)?\.amazonaws\.com$`
decided by enumerating the two split points of the body before the fixed
`.amazonaws.com` suffix. -/
def s3HostPattern (h : List Char) : Bool :=
  let suf := ".amazonaws.com".data
  suf.isSuffixOf h &&
    (let body := h.take (h.length - suf.length)
     (List.range (body.length + 1)).any fun q =>
       optPartOk (body.drop q) &&
         (List.range (q + 1)).any fun p =>
           prePartOk ((body.take q).take p) && midPartOk ((body.take q).drop p))

/-- JavaScript `s.endsWith(suffix)`. -/
def strEndsWith (s suf : String) : Bool := suf.data.isSuffixOf s.data

/-- `isValidStorageHost` from `storage/src/utils.ts`: lower-cases the host,
accepts the Vercel blob domain suffixes, and for hosts ending in
`.amazonaws.com` defers to the S3 host pattern. -/
def isValidStorageHost (host : String) : Bool :=
  let normalizedHost := asciiLower host
  if strEndsWith normalizedHost ".blob.vercel-storage.com" ||
      strEndsWith normalizedHost ".vercel-storage.com" then true
  else if strEndsWith normalizedHost ".amazonaws.com" then
    s3HostPattern normalizedHost.data
  else false

/-- `extractPathnameFromUrl` from `storage/src/utils.ts`.  The outcome of
`new URL(url)` (external URL parser) is supplied as the `parsed` argument:
`some u` when the input parses as a URL, `none` when the constructor throws.
URL branch: host allow-list check, then percent-decoding of the pathname
with its leading `/` removed, then `validatePathname`.  Non-URL branch:
reject a scheme separator in the lower-cased input, reject a domain-like
prefix, `validatePathname` on the raw input, strip one leading `/`, and
reject the empty result. -/
def extractPathnameFromUrl (url : String) (parsed : Option ParsedURL) :
    Except StorageErr String :=
  if url = "" then .error .invalidInput
  else
    match parsed with
    | some u =>
      if !isValidStorageHost u.host then .error .untrustedHost
      else
        match percentDecode (u.pathname.data.drop 1) with
        | none => .error .uriError
        | some cs =>
          let pathname := String.mk cs
          match validatePathname pathname with
          | .error e => .error e
          | .ok _ => .ok pathname
    | none =>
      if strContains (asciiLower url) "://" then .error .malformedInput
      else if domainLike url then .error .suspiciousPattern
      else
        match validatePathname url with
        | .error e => .error e
        | .ok _ =>
          let pathname :=
            if "/".data.isPrefixOf url.data then String.mk (url.data.drop 1) else url
          if pathname = "" then .error .emptyPathname
          else .ok pathname

/-- The closed set of logical buckets from `storage/src/types.ts`. -/
inductive StorageBucket : Type
  | attachments
  | questionnaires
  | knowledgeBase
  | orgAssets
  | fleetAgents
deriving DecidableEq

/-- The string literal naming each bucket in the source union type. -/
def bucketName : StorageBucket → String
  | .attachments => "attachments"
  | .questionnaires => "questionnaires"
  | .knowledgeBase => "knowledge-base"
  | .orgAssets => "org-assets"
  | .fleetAgents => "fleet-agents"

/-- `getBucketPrefix` from `storage/src/types.ts`: the bucket name plus a
trailing separator. -/
def getBucketPrefix (bucket : StorageBucket) : String := bucketName bucket ++ "/"

/-- `buildPathname` from `storage/src/types.ts`: strips one leading `/`
from the key (JavaScript `key.startsWith('/') ? key.slice(1) : key`) and
prepends the bucket prefix. -/
def buildPathname (bucket : StorageBucket) (key : String) : String :=
  let cleanKey := if "/".data.isPrefixOf key.data then String.mk (key.data.drop 1) else key
  getBucketPrefix bucket ++ cleanKey

/-- A stored object on the backend: its bytes and content type.  Further
provider-side metadata (upload time, cache control) is irrelevant to every
claim and omitted. -/
structure Obj where
  data : List Nat
  contentType : String
deriving DecidableEq

/-- Backend model: the abstract object store of the Vercel Blob backend,
a map from the string key the SDK receives (the repository passes either a
pathname or a full blob URL through `resolveUrl`, conflating the two — see
the source comment in `resolveUrl`) to the stored object. -/
def Store : Type := String → Option Obj

/-- Failures of the provider operations, one constructor per throw site:
`downloadFailed p s` = the Error "Failed to download p: s ..." thrown on a
non-ok fetch response; `backendNotFound u` = the SDK `head` rejection for a
missing blob (caught by the provider's `head`). -/
inductive StorageFailure : Type
  | downloadFailed (pathname : String) (status : Nat)
  | backendNotFound (url : String)
deriving DecidableEq

/-- The metadata snapshot returned by the provider's `head` (url, pathname,
content type, size; remaining fields omitted as in `Obj`). -/
structure HeadResult where
  url : String
  pathname : String
  contentType : String
  size : Nat
deriving DecidableEq

/-- The result shape of `upload` (url, pathname, contentType, size). -/
structure UploadResult where
  url : String
  pathname : String
  contentType : String
  size : Nat
deriving DecidableEq

/-- Upload options: only `contentType` is exercised by any claim (the
cache-control, content-disposition and random-suffix options of the source
never affect the claims' observables). -/
structure UploadOptions where
  contentType : Option String := none
deriving DecidableEq

/-- Backend model: the SDK `put` — stores the object under the given
pathname; an absent content type falls back to the backend default. -/
def putModel (st : Store) (pathname : String) (data : List Nat)
    (contentType : Option String) : Obj × Store :=
  let obj : Obj := ⟨data, contentType.getD "application/octet-stream"⟩
  (obj, fun k => if k = pathname then some obj else st k)

/-- Backend model: the SDK `head` — metadata for a present key, a
rejection (`BlobNotFoundError`) for an absent one. -/
def headModel (st : Store) (url : String) : Except StorageFailure HeadResult :=
  match st url with
  | some o => .ok ⟨url, url, o.contentType, o.data.length⟩
  | none => .error (.backendNotFound url)

/-- Backend model: `fetch` of a blob URL — the body bytes for a present
key (status 200), `none` for status 404. -/
def fetchModel (st : Store) (url : String) : Option (List Nat) :=
  (st url).map (fun o => o.data)

/-- Modelled from the spec: the external SDK bulk `del`.  The spec's
best-effort bulk-deletion semantics: every URL in the list is attempted;
keys whose deletion the backend fails (oracle `fails`) are left in place,
all others are removed, and a failure on one key never aborts the rest. -/
def delModel (fails : String → Bool) (st : Store) (urls : List String) : Store :=
  fun k => if urls.contains k && !fails k then none else st k

/-- `resolveUrl` from `blob-provider.ts`: a string that is already an
`http://` or `https://` URL is returned as-is; otherwise the pathname is
also returned as-is (the source returns `pathname` on both branches). -/
def VercelBlobProvider.resolveUrl (pathname : String) : String :=
  if "http://".data.isPrefixOf pathname.data || "https://".data.isPrefixOf pathname.data then
    pathname
  else pathname

/-- `download` from `blob-provider.ts`: fetch the resolved URL; a non-ok
response (404 for a missing object) becomes the thrown download error. -/
def VercelBlobProvider.download (st : Store) (pathname : String) :
    Except StorageFailure (List Nat) :=
  match fetchModel st (VercelBlobProvider.resolveUrl pathname) with
  | some bytes => .ok bytes
  | none => .error (.downloadFailed pathname 404)

/-- `downloadStream` from `blob-provider.ts`: same fetch, returning the
response body as a byte sequence (the stream's contents). -/
def VercelBlobProvider.downloadStream (st : Store) (pathname : String) :
    Except StorageFailure (List Nat) :=
  match fetchModel st (VercelBlobProvider.resolveUrl pathname) with
  | some bytes => .ok bytes
  | none => .error (.downloadFailed pathname 404)

/-- `upload` from `blob-provider.ts`: SDK `put` with the caller's content
type, returning url/pathname/contentType and a hard-coded size of 0. -/
def VercelBlobProvider.upload (st : Store) (pathname : String) (data : List Nat)
    (options : UploadOptions) : UploadResult × Store :=
  let r := putModel st pathname data options.contentType
  (⟨pathname, pathname, r.1.contentType, 0⟩, r.2)

/-- `delete` from `blob-provider.ts`: SDK `del` on the resolved URL
(idempotent: deleting an absent key is a no-op). -/
def VercelBlobProvider.delete (st : Store) (pathname : String) : Store :=
  fun k => if k = VercelBlobProvider.resolveUrl pathname then none else st k

/-- `deleteMany` from `blob-provider.ts`: early return on an empty list,
otherwise one bulk SDK `del` over all resolved URLs. -/
def VercelBlobProvider.deleteMany (fails : String → Bool) (st : Store)
    (pathnames : List String) : Store :=
  if pathnames.isEmpty then st
  else delModel fails st (pathnames.map VercelBlobProvider.resolveUrl)

/-- `head` from `blob-provider.ts`: SDK `head` on the resolved URL inside
try/catch — any rejection is swallowed and becomes `null` (`none`). -/
def VercelBlobProvider.head (st : Store) (pathname : String) :
    Except StorageFailure (Option HeadResult) :=
  match headModel st (VercelBlobProvider.resolveUrl pathname) with
  | .ok r => .ok (some r)
  | .error _ => .ok none

/-- `exists` from `blob-provider.ts`: `head` is null-tested. -/
def VercelBlobProvider.exists (st : Store) (pathname : String) :
    Except StorageFailure Bool :=
  match VercelBlobProvider.head st pathname with
  | .ok r => .ok r.isSome
  | .error e => .error e

/-- `copy` from `blob-provider.ts`: no native copy, so download the full
source, `head` it for its content type, and re-upload at the destination. -/
def VercelBlobProvider.copy (st : Store) (sourcePathname destPathname : String) :
    Except StorageFailure (UploadResult × Store) :=
  match VercelBlobProvider.download st sourcePathname with
  | .error e => .error e
  | .ok data =>
    match VercelBlobProvider.head st sourcePathname with
    | .error e => .error e
    | .ok headResult =>
      .ok (VercelBlobProvider.upload st destPathname data
        ⟨headResult.map (fun h => h.contentType)⟩)

/-- `getStorage` from `storage/src/index.ts`: the module-level
`storageInstance` cache — construct the provider on first use, return the
cached instance afterwards.  `mk` is the provider constructor
(`new VercelBlobProvider()`), kept abstract since the handle forwards to
any provider. -/
def getStorage {P : Type} (mk : Unit → P) : Option P → P × Option P
  | none => (mk (), some (mk ()))
  | some i => (i, some i)

/-- The `storage` proxy handle from `storage/src/index.ts`, run over a
sequence of operation calls: each call fetches the instance through
`getStorage` and applies the operation to it.  The third component counts
provider constructions. -/
def runStorage {P α : Type} (mk : Unit → P) :
    List (P → α) → Option P → List α × Option P × Nat
  | [], s => ([], s, 0)
  | op :: ops, s =>
    match s with
    | some i =>
      let r := runStorage mk ops (some i)
      (op i :: r.1, r.2.1, r.2.2)
    | none =>
      let i := mk ()
      let r := runStorage mk ops (some i)
      (op i :: r.1, r.2.1, r.2.2 + 1)

/-- The base64 alphabet. -/
def b64Chars : List Char :=
  "ABCDEFGHIJKLMNOPQRSTUVWXYZabcdefghijklmnopqrstuvwxyz0123456789+/".data

/-- Character for one six-bit group. -/
def b64Char (n : Nat) : Char := b64Chars.getD n 'A'

/-- Position of a character in a list. -/
def idxOf (c : Char) : List Char → Option Nat
  | [] => none
  | a :: t => if a = c then some 0 else (idxOf c t).map (fun n => n + 1)

/-- Six-bit value of one base64 character. -/
def sextetOf (c : Char) : Option Nat := idxOf c b64Chars

/-- Standard base64 encoding with `=` padding: the behavior of Node's
`buffer.toString('base64')`. -/
def encodeB64 : List Nat → List Char
  | a :: b :: c :: rest =>
    b64Char (a / 4) :: b64Char (a % 4 * 16 + b / 16) ::
      b64Char (b % 16 * 4 + c / 64) :: b64Char (c % 64) :: encodeB64 rest
  | [a, b] => [b64Char (a / 4), b64Char (a % 4 * 16 + b / 16), b64Char (b % 16 * 4), '=']
  | [a] => [b64Char (a / 4), b64Char (a % 4 * 16), '=', '=']
  | [] => []

/-- Base64 decoding of well-formed base64 text with `=` padding: the
behavior of Node's `Buffer.from(s, 'base64')` on every string the claims
exercise (Node's extra leniency towards junk characters is not modelled). -/
def decodeB64 : List Char → List Nat
  | c0 :: c1 :: c2 :: c3 :: rest =>
    (match sextetOf c0, sextetOf c1 with
    | some s0, some s1 =>
      if c2 = '=' then [s0 * 4 + s1 / 16]
      else
        match sextetOf c2 with
        | some s2 =>
          if c3 = '=' then [s0 * 4 + s1 / 16, s1 % 16 * 16 + s2 / 4]
          else
            match sextetOf c3 with
            | some s3 =>
              (s0 * 4 + s1 / 16) :: (s1 % 16 * 16 + s2 / 4) ::
                (s2 % 4 * 64 + s3) :: decodeB64 rest
            | none => []
        | none => []
    | _, _ => [])
  | _ => []

/-- `bufferToBase64` from `storage/src/utils.ts`. -/
def bufferToBase64 (buffer : List Nat) : String := String.mk (encodeB64 buffer)

/-- `base64ToBuffer` from `storage/src/utils.ts`: strip a data-URL prefix
(`base64.includes(',') ? base64.split(',')[1] ?? base64 : base64`),
then decode. -/
def base64ToBuffer (base64 : String) : List Nat :=
  let base64Data :=
    if strContains base64 "," then (splitOnChar ',' base64.data).getD 1 base64.data
    else base64.data
  decodeB64 base64Data

/-! ## Helper lemmas -/

theorem strData_append (a b : String) : (a ++ b).data = a.data ++ b.data := rfl

theorem str_eq_iff_data (a b : String) : a = b ↔ a.data = b.data := by
  constructor
  · intro h; rw [h]
  · intro h; cases a; cases b; exact congrArg String.mk h

theorem resolveUrl_id (p : String) : VercelBlobProvider.resolveUrl p = p := by
  unfold VercelBlobProvider.resolveUrl
  exact ite_self p

theorem deleteMany_removes (fails : String → Bool) (st : Store) (ps : List String)
    (p : String) (hmem : p ∈ ps) (hf : fails p = false) :
    VercelBlobProvider.deleteMany fails st ps p = none := by
  have hne : ps.isEmpty = false := by
    cases ps with
    | nil => exact absurd hmem (List.not_mem_nil p)
    | cons a t => rfl
  have hcont : (ps.map VercelBlobProvider.resolveUrl).contains p = true := by
    have h2 : p ∈ ps.map VercelBlobProvider.resolveUrl := by
      have h3 := List.mem_map_of_mem VercelBlobProvider.resolveUrl hmem
      rwa [resolveUrl_id] at h3
    simpa [List.contains, List.elem_iff] using h2
  unfold VercelBlobProvider.deleteMany delModel
  simp [hne, hcont, hf]
  intro hx
  exact absurd (resolveUrl_id p) (hx p hmem)

theorem deleteMany_keeps_failed (fails : String → Bool) (st : Store) (ps : List String)
    (p : String) (hf : fails p = true) :
    VercelBlobProvider.deleteMany fails st ps p = st p := by
  unfold VercelBlobProvider.deleteMany delModel
  cases h : ps.isEmpty with
  | true => simp [h]
  | false => simp [h, hf]

/-! ## Claim theorems -/

/-- C2: `validatePathname` fails exactly when the input is empty, contains
the substring "../" or "..\", or contains a null byte, and returns
successfully on every other string; in particular `validatePathname "a/../b"`
fails with the path-traversal error, `extractPathnameFromUrl` rejects
"attachments/../../etc/passwd" with the same validation error, and
"attachments/org1/file.pdf" is returned unchanged. -/
theorem claim_C2 :
    (∀ s : String, (∃ e, validatePathname s = .error e) ↔
      (s = "" ∨ strContains s "../" = true ∨ strContains s "..\\" = true ∨
        strContains s "\x00" = true))
  ∧ validatePathname "a/../b" = .error .pathTraversal
  ∧ extractPathnameFromUrl "attachments/../../etc/passwd" none = .error .pathTraversal
  ∧ extractPathnameFromUrl "attachments/org1/file.pdf" none =
      .ok "attachments/org1/file.pdf" := by
  refine ⟨fun s => ?_, by decide, by decide, by decide⟩
  unfold validatePathname
  split_ifs with h1 h2 h3 <;> simp_all
  tauto

/-- C2 witness: the theorem applied at the concrete input "a/../b". -/
theorem claim_C2_witness : ∃ e, validatePathname "a/../b" = .error e :=
  (claim_C2.1 "a/../b").mpr (Or.inr (Or.inl (by decide)))

/-- C6: `buildPathname` returns the bucket name, a single separator, and
the key with one leading separator stripped; in particular
`buildPathname "org-assets" "/acme/logo.png" = "org-assets/acme/logo.png"`. -/
theorem claim_C6 :
    (∀ (bucket : StorageBucket) (key : String),
      buildPathname bucket key =
        bucketName bucket ++ "/" ++
          (if "/".data.isPrefixOf key.data then String.mk (key.data.drop 1) else key))
  ∧ (∀ (bucket : StorageBucket) (key : String),
      (buildPathname bucket key).data =
        (bucketName bucket).data ++ '/' ::
          (if "/".data.isPrefixOf key.data then key.data.drop 1 else key.data))
  ∧ buildPathname .orgAssets "/acme/logo.png" = "org-assets/acme/logo.png" := by
  refine ⟨fun b k => ?_, fun b k => ?_, by decide⟩
  · rw [str_eq_iff_data]
    unfold buildPathname getBucketPrefix
    split <;> simp [strData_append]
  · unfold buildPathname getBucketPrefix
    split <;> simp [strData_append]

/-- C9: the process-wide storage handle forwards every operation to the
provider instance unchanged, constructing the provider lazily on first use
and never more than once: a run of calls from the uninitialized state
returns exactly the results of calling each operation directly on the one
constructed instance, with zero constructions when no call is made. -/
theorem claim_C9 :
    (∀ (P : Type) (mk : Unit → P) (i : P), getStorage mk (some i) = (i, some i))
  ∧ (∀ (P : Type) (mk : Unit → P), getStorage mk none = (mk (), some (mk ())))
  ∧ (∀ (P α : Type) (mk : Unit → P) (ops : List (P → α)) (i : P),
      runStorage mk ops (some i) = (ops.map (fun op => op i), some i, 0))
  ∧ (∀ (P α : Type) (mk : Unit → P) (op : P → α) (ops : List (P → α)),
      runStorage mk (op :: ops) none =
        ((op :: ops).map (fun o => o (mk ())), some (mk ()), 1))
  ∧ (∀ (P α : Type) (mk : Unit → P),
      runStorage mk ([] : List (P → α)) none = ([], none, 0)) := by
  have hsome : ∀ (P α : Type) (mk : Unit → P) (ops : List (P → α)) (i : P),
      runStorage mk ops (some i) = (ops.map (fun op => op i), some i, 0) := by
    intro P α mk ops i
    induction ops with
    | nil => rfl
    | cons op t ih => simp [runStorage, ih]
  refine ⟨fun P mk i => rfl, fun P mk => rfl, hsome, ?_, fun P α mk => rfl⟩
  intro P α mk op ops
  simp [runStorage, hsome]

/-- C1: on an input that parses as a URL, `extractPathnameFromUrl` fails
with the untrusted-host error whenever the host misses the storage
allow-list, and on an allow-listed host returns the URL's path component
with the leading separator removed and percent-decoded once that decoded
path passes `validatePathname`; in particular a trusted-host URL with path
"/attachments/x.pdf" yields "attachments/x.pdf" and the same path on an
untrusted host is rejected. -/
theorem claim_C1 :
    (∀ (url : String) (u : ParsedURL), url ≠ "" → isValidStorageHost u.host = false →
      extractPathnameFromUrl url (some u) = .error .untrustedHost)
  ∧ (∀ (url : String) (u : ParsedURL) (cs : List Char), url ≠ "" →
      isValidStorageHost u.host = true →
      percentDecode (u.pathname.data.drop 1) = some cs →
      validatePathname (String.mk cs) = .ok () →
      extractPathnameFromUrl url (some u) = .ok (String.mk cs))
  ∧ extractPathnameFromUrl "https://foo.blob.vercel-storage.com/attachments/x.pdf"
      (some ⟨"foo.blob.vercel-storage.com", "/attachments/x.pdf"⟩) = .ok "attachments/x.pdf"
  ∧ extractPathnameFromUrl "https://evil.example.com/attachments/x.pdf"
      (some ⟨"evil.example.com", "/attachments/x.pdf"⟩) = .error .untrustedHost := by
  refine ⟨?_, ?_, by decide, by decide⟩
  · intro url u hurl hhost
    unfold extractPathnameFromUrl
    simp [hurl, hhost]
  · intro url u cs hurl hhost hdec hval
    unfold extractPathnameFromUrl
    rw [List.drop_one] at hdec
    simp [hurl, hhost, hdec, hval]

/-- C1 witness: the theorem applied at a concrete untrusted and a concrete
trusted URL. -/
theorem claim_C1_witness :
    extractPathnameFromUrl "https://evil.example.com/attachments/x.pdf"
      (some ⟨"evil.example.com", "/attachments/x.pdf"⟩) = .error .untrustedHost
    ∧ extractPathnameFromUrl "https://foo.blob.vercel-storage.com/attachments/x.pdf"
      (some ⟨"foo.blob.vercel-storage.com", "/attachments/x.pdf"⟩) =
        .ok (String.mk "attachments/x.pdf".data) :=
  ⟨claim_C1.1 "https://evil.example.com/attachments/x.pdf"
      ⟨"evil.example.com", "/attachments/x.pdf"⟩ (by decide) (by decide),
   claim_C1.2.1 "https://foo.blob.vercel-storage.com/attachments/x.pdf"
      ⟨"foo.blob.vercel-storage.com", "/attachments/x.pdf"⟩ "attachments/x.pdf".data
      (by decide) (by decide) (by decide) (by decide)⟩

/-- C4: `copy` (download-then-reupload, no native copy) places at the
destination an object with exactly the source's bytes and content type,
and fails with the 404 download error when the source is absent. -/
theorem claim_C4 :
    (∀ (st : Store) (src dst : String) (o : Obj),
      st (VercelBlobProvider.resolveUrl src) = some o →
      ∃ (r : UploadResult) (st2 : Store),
        VercelBlobProvider.copy st src dst = .ok (r, st2)
        ∧ st2 dst = some ⟨o.data, o.contentType⟩
        ∧ r.contentType = o.contentType)
  ∧ (∀ (st : Store) (src dst : String),
      st (VercelBlobProvider.resolveUrl src) = none →
      VercelBlobProvider.copy st src dst = .error (.downloadFailed src 404)) := by
  constructor
  · intro st src dst o h
    unfold VercelBlobProvider.copy VercelBlobProvider.download VercelBlobProvider.head
      VercelBlobProvider.upload headModel fetchModel putModel
    simp [h]
    refine ⟨⟨dst, dst, o.contentType, 0⟩,
      fun k => if k = dst then some ⟨o.data, o.contentType⟩ else st k, ⟨rfl, rfl⟩, by simp, rfl⟩
  · intro st src dst h
    unfold VercelBlobProvider.copy VercelBlobProvider.download fetchModel
    simp [h]

/-- C4 witness: the theorem applied at a one-object store. -/
theorem claim_C4_witness :
    ∃ (r : UploadResult) (st2 : Store),
      VercelBlobProvider.copy
        (fun u => if u = "a.txt" then some ⟨[1, 2], "text/plain"⟩ else none)
        "a.txt" "b.txt" = .ok (r, st2)
      ∧ st2 "b.txt" = some ⟨[1, 2], "text/plain"⟩
      ∧ r.contentType = "text/plain" :=
  claim_C4.1 (fun u => if u = "a.txt" then some ⟨[1, 2], "text/plain"⟩ else none)
    "a.txt" "b.txt" ⟨[1, 2], "text/plain"⟩ (by decide)

/-- C5: `deleteMany` is best-effort under partial failure — every listed
pathname whose deletion the backend does not fail is removed, a failed key
is left in place without affecting the others, and the empty list is a
no-op; in particular with three keys where the second fails, the first and
third are still deleted. -/
theorem claim_C5 :
    (∀ (fails : String → Bool) (st : Store) (ps : List String) (p : String),
      p ∈ ps → fails p = false →
      VercelBlobProvider.deleteMany fails st ps p = none)
  ∧ (∀ (fails : String → Bool) (st : Store) (ps : List String) (p : String),
      fails p = true →
      VercelBlobProvider.deleteMany fails st ps p = st p)
  ∧ (∀ (fails : String → Bool) (st : Store),
      VercelBlobProvider.deleteMany fails st [] = st)
  ∧ (VercelBlobProvider.deleteMany (fun u => u == "p2")
        (fun _ => some ⟨[1], "text/plain"⟩) ["p1", "p2", "p3"] "p1" = none
      ∧ VercelBlobProvider.deleteMany (fun u => u == "p2")
        (fun _ => some ⟨[1], "text/plain"⟩) ["p1", "p2", "p3"] "p3" = none
      ∧ VercelBlobProvider.deleteMany (fun u => u == "p2")
        (fun _ => some ⟨[1], "text/plain"⟩) ["p1", "p2", "p3"] "p2" =
          some ⟨[1], "text/plain"⟩) := by
  refine ⟨fun fails st ps p hmem hf => deleteMany_removes fails st ps p hmem hf,
    fun fails st ps p hf => deleteMany_keeps_failed fails st ps p hf,
    fun fails st => rfl, by decide, by decide, by decide⟩

/-- C5 witness: the theorem applied at the three-key list with the second
key failing. -/
theorem claim_C5_witness :
    VercelBlobProvider.deleteMany (fun u => u == "p2")
      (fun _ => some ⟨[1], "text/plain"⟩) ["p1", "p2", "p3"] "p3" = none :=
  claim_C5.1 (fun u => u == "p2") (fun _ => some ⟨[1], "text/plain"⟩)
    ["p1", "p2", "p3"] "p3" (by decide) (by decide)

/-- C8: `exists` never fails and is false exactly when `head` returns the
null result; `head` never throws for a missing object — absence yields the
null result, presence the metadata snapshot. -/
theorem claim_C8 :
    (∀ (st : Store) (p : String), ∃ b, VercelBlobProvider.exists st p = .ok b)
  ∧ (∀ (st : Store) (p : String),
      VercelBlobProvider.exists st p = .ok false ↔
        VercelBlobProvider.head st p = .ok none)
  ∧ (∀ (st : Store) (p : String), st (VercelBlobProvider.resolveUrl p) = none →
      VercelBlobProvider.head st p = .ok none
      ∧ VercelBlobProvider.exists st p = .ok false)
  ∧ (∀ (st : Store) (p : String) (o : Obj),
      st (VercelBlobProvider.resolveUrl p) = some o →
      VercelBlobProvider.head st p =
        .ok (some ⟨VercelBlobProvider.resolveUrl p, VercelBlobProvider.resolveUrl p,
          o.contentType, o.data.length⟩)
      ∧ VercelBlobProvider.exists st p = .ok true) := by
  refine ⟨?_, ?_, ?_, ?_⟩
  · intro st p
    cases h : st (VercelBlobProvider.resolveUrl p) with
    | none =>
      exact ⟨false, by simp [VercelBlobProvider.exists, VercelBlobProvider.head, headModel, h]⟩
    | some o =>
      exact ⟨true, by simp [VercelBlobProvider.exists, VercelBlobProvider.head, headModel, h]⟩
  · intro st p
    cases h : st (VercelBlobProvider.resolveUrl p) with
    | none => simp [VercelBlobProvider.exists, VercelBlobProvider.head, headModel, h]
    | some o => simp [VercelBlobProvider.exists, VercelBlobProvider.head, headModel, h]
  · intro st p h
    simp [VercelBlobProvider.exists, VercelBlobProvider.head, headModel, h]
  · intro st p o h
    simp [VercelBlobProvider.exists, VercelBlobProvider.head, headModel, h]

/-- C8 witness: the theorem applied at the empty store. -/
theorem claim_C8_witness :
    VercelBlobProvider.head (fun _ => none) "missing.txt" = .ok none
    ∧ VercelBlobProvider.exists (fun _ => none) "missing.txt" = .ok false :=
  claim_C8.2.2.1 (fun _ => none) "missing.txt" rfl

/-- C10: for a pathname that already begins with "http://" or "https://",
`resolveUrl` returns it unchanged and `download`, `downloadStream`,
`delete`, `deleteMany` and `head` use it verbatim as the backend key, with
no trusted-host allow-list check anywhere in the provider — concretely, a
URL on a host rejected by `isValidStorageHost` still downloads fine. -/
theorem claim_C10 :
    (∀ (p : String),
      "http://".data.isPrefixOf p.data = true ∨ "https://".data.isPrefixOf p.data = true →
      VercelBlobProvider.resolveUrl p = p
      ∧ (∀ (st : Store) (o : Obj), st p = some o →
          VercelBlobProvider.download st p = .ok o.data
          ∧ VercelBlobProvider.downloadStream st p = .ok o.data
          ∧ VercelBlobProvider.head st p = .ok (some ⟨p, p, o.contentType, o.data.length⟩))
      ∧ (∀ st : Store, st p = none →
          VercelBlobProvider.download st p = .error (.downloadFailed p 404)
          ∧ VercelBlobProvider.head st p = .ok none)
      ∧ (∀ st : Store, VercelBlobProvider.delete st p p = none)
      ∧ (∀ (fails : String → Bool) (st : Store) (ps : List String),
          p ∈ ps → fails p = false → VercelBlobProvider.deleteMany fails st ps p = none))
  ∧ isValidStorageHost "evil.example.com" = false
  ∧ VercelBlobProvider.download
      (fun u => if u = "https://evil.example.com/x" then some ⟨[7], "text/html"⟩ else none)
      "https://evil.example.com/x" = .ok [7] := by
  refine ⟨?_, by decide, by decide⟩
  intro p _hp
  refine ⟨resolveUrl_id p, ?_, ?_, ?_, ?_⟩
  · intro st o h
    simp [VercelBlobProvider.download, VercelBlobProvider.downloadStream,
      VercelBlobProvider.head, headModel, fetchModel, resolveUrl_id, h]
  · intro st h
    simp [VercelBlobProvider.download, VercelBlobProvider.head, headModel, fetchModel,
      resolveUrl_id, h]
  · intro st
    simp [VercelBlobProvider.delete, resolveUrl_id]
  · intro fails st ps hmem hf
    exact deleteMany_removes fails st ps p hmem hf

/-- C10 witness: the theorem applied at a URL whose host fails the
allow-list. -/
theorem claim_C10_witness :
    VercelBlobProvider.resolveUrl "https://evil.example.com/x" = "https://evil.example.com/x"
    ∧ VercelBlobProvider.download
      (fun u => if u = "https://evil.example.com/x" then some ⟨[7], "text/html"⟩ else none)
      "https://evil.example.com/x" = .ok [7] := by
  have h := claim_C10.1 "https://evil.example.com/x" (Or.inr (by decide))
  exact ⟨h.1,
    (h.2.1 (fun u => if u = "https://evil.example.com/x" then some ⟨[7], "text/html"⟩ else none)
      ⟨[7], "text/html"⟩ (by decide)).1⟩

theorem sextetOf_b64Char : ∀ n, n < 64 → sextetOf (b64Char n) = some n := by decide

theorem b64Char_ne_pad : ∀ n, n < 64 → b64Char n ≠ '=' := by decide

theorem comma_ne_b64Char (n : Nat) : ',' ≠ b64Char n := by
  rcases Nat.lt_or_ge n 64 with h | h
  · have hb : ∀ m, m < 64 → ',' ≠ b64Char m := by decide
    exact hb n h
  · have hl : b64Chars.length ≤ n := by
      have he : b64Chars.length = 64 := rfl
      omega
    unfold b64Char
    rw [List.getD_eq_default b64Chars 'A' hl]
    decide

theorem encodeB64_no_comma : ∀ l : List Nat, ',' ∉ encodeB64 l
  | a :: b :: c :: rest => by
    simp [encodeB64, List.mem_cons, comma_ne_b64Char]
    exact encodeB64_no_comma rest
  | [a, b] => by
    simp [encodeB64, List.mem_cons, comma_ne_b64Char]
  | [a] => by
    simp [encodeB64, List.mem_cons, comma_ne_b64Char]
  | [] => by simp [encodeB64]

theorem decode_encode : ∀ l : List Nat, (∀ x ∈ l, x < 256) → decodeB64 (encodeB64 l) = l
  | [], _ => rfl
  | [a], h => by
    have ha : a < 256 := h a (by simp)
    have h0 : sextetOf (b64Char (a / 4)) = some (a / 4) := sextetOf_b64Char _ (by omega)
    have h1 : sextetOf (b64Char (a % 4 * 16)) = some (a % 4 * 16) := sextetOf_b64Char _ (by omega)
    simp [encodeB64, decodeB64, h0, h1]
    omega
  | [a, b], h => by
    have ha : a < 256 := h a (by simp)
    have hb : b < 256 := h b (by simp)
    have h0 : sextetOf (b64Char (a / 4)) = some (a / 4) := sextetOf_b64Char _ (by omega)
    have h1 : sextetOf (b64Char (a % 4 * 16 + b / 16)) = some (a % 4 * 16 + b / 16) :=
      sextetOf_b64Char _ (by omega)
    have h2 : sextetOf (b64Char (b % 16 * 4)) = some (b % 16 * 4) :=
      sextetOf_b64Char _ (by omega)
    have hne : b64Char (b % 16 * 4) ≠ '=' := b64Char_ne_pad _ (by omega)
    simp [encodeB64, decodeB64, h0, h1, h2, hne]
    omega
  | a :: b :: c :: rest, h => by
    have ha : a < 256 := h a (by simp)
    have hb : b < 256 := h b (by simp)
    have hc : c < 256 := h c (by simp)
    have h0 : sextetOf (b64Char (a / 4)) = some (a / 4) := sextetOf_b64Char _ (by omega)
    have h1 : sextetOf (b64Char (a % 4 * 16 + b / 16)) = some (a % 4 * 16 + b / 16) :=
      sextetOf_b64Char _ (by omega)
    have h2 : sextetOf (b64Char (b % 16 * 4 + c / 64)) = some (b % 16 * 4 + c / 64) :=
      sextetOf_b64Char _ (by omega)
    have h3 : sextetOf (b64Char (c % 64)) = some (c % 64) := sextetOf_b64Char _ (by omega)
    have hne2 : b64Char (b % 16 * 4 + c / 64) ≠ '=' := b64Char_ne_pad _ (by omega)
    have hne3 : b64Char (c % 64) ≠ '=' := b64Char_ne_pad _ (by omega)
    have ih := decode_encode rest (fun x hx => h x (by simp [hx]))
    simp [encodeB64, decodeB64, h0, h1, h2, h3, hne2, hne3, ih]
    omega

theorem hasSubstr_singleton (l : List Char) (c : Char) : hasSubstr l [c] = true ↔ c ∈ l := by
  induction l with
  | nil => simp [hasSubstr]
  | cons d t ih => simp [hasSubstr, List.isPrefixOf, ih]

theorem splitOnChar_no_sep (sep : Char) : ∀ l : List Char, sep ∉ l → splitOnChar sep l = [l] := by
  intro l
  induction l with
  | nil => intro h; rfl
  | cons c t ih =>
    intro h
    have hc : ¬(c = sep) := fun he => h (by simp [he])
    have ht : sep ∉ t := fun hm => h (List.mem_cons_of_mem c hm)
    simp [splitOnChar, hc, ih ht]

theorem splitOnChar_append (sep : Char) : ∀ (l1 l2 : List Char), sep ∉ l1 →
    splitOnChar sep (l1 ++ sep :: l2) = l1 :: splitOnChar sep l2 := by
  intro l1
  induction l1 with
  | nil => intro l2 h; simp [splitOnChar]
  | cons c t ih =>
    intro l2 h
    have hc : ¬(c = sep) := fun he => h (by simp [he])
    have ht : sep ∉ t := fun hm => h (List.mem_cons_of_mem c hm)
    simp [splitOnChar, hc, ih l2 ht]

theorem base64ToBuffer_of_contains (s : String) (h : strContains s "," = true) :
    base64ToBuffer s = decodeB64 ((splitOnChar ',' s.data).getD 1 s.data) := by
  unfold base64ToBuffer
  simp only [h, if_true]

theorem base64ToBuffer_of_not_contains (s : String) (h : strContains s "," = false) :
    base64ToBuffer s = decodeB64 s.data := by
  unfold base64ToBuffer
  simp only [h, Bool.false_eq_true, if_false]

/-- C7: base64 round trip — decoding the encoding of any byte buffer
returns the buffer — and `base64ToBuffer` strips a data-URL prefix
(`data:<mime>;base64,`) before decoding, so a data URL decodes to the same
bytes as its bare base64 payload. -/
theorem claim_C7 :
    (∀ l : List Nat, (∀ x ∈ l, x < 256) → base64ToBuffer (bufferToBase64 l) = l)
  ∧ (∀ (mime payload : String), ',' ∉ mime.data → ',' ∉ payload.data →
      base64ToBuffer ("data:" ++ mime ++ ";base64," ++ payload) = base64ToBuffer payload
      ∧ base64ToBuffer ("data:" ++ mime ++ ";base64," ++ payload) = decodeB64 payload.data) := by
  have hnc : ∀ s : String, ',' ∉ s.data → strContains s "," = false := by
    intro s h
    show hasSubstr s.data ",".data = false
    have e : ",".data = [','] := rfl
    rw [e]
    cases hb : hasSubstr s.data [','] with
    | false => rfl
    | true => exact absurd ((hasSubstr_singleton s.data ',').mp hb) h
  constructor
  · intro l h
    have hb : strContains (bufferToBase64 l) "," = false := hnc _ (encodeB64_no_comma l)
    unfold base64ToBuffer
    simp [hb]
    exact decode_encode l h
  · intro mime payload hm hp
    have hdata : ("data:" ++ mime ++ ";base64," ++ payload).data =
        ("data:".data ++ (mime.data ++ ";base64".data)) ++ ',' :: payload.data := by
      have e : ";base64,".data = ";base64".data ++ [','] := rfl
      simp [strData_append, e, List.append_assoc]
    have hpre : ',' ∉ ("data:".data ++ (mime.data ++ ";base64".data)) := by
      intro hmem
      rcases List.mem_append.mp hmem with h1 | h2
      · exact absurd h1 (by decide)
      · rcases List.mem_append.mp h2 with h3 | h4
        · exact hm h3
        · exact absurd h4 (by decide)
    have hs : strContains ("data:" ++ mime ++ ";base64," ++ payload) "," = true := by
      show hasSubstr ("data:" ++ mime ++ ";base64," ++ payload).data ",".data = true
      have e : ",".data = [','] := rfl
      rw [e, hdata]
      exact (hasSubstr_singleton _ ',').mpr
        (List.mem_append.mpr (Or.inr (List.mem_cons_self ',' payload.data)))
    have hsplit := splitOnChar_append ',' ("data:".data ++ (mime.data ++ ";base64".data))
      payload.data hpre
    have hpay : splitOnChar ',' payload.data = [payload.data] :=
      splitOnChar_no_sep ',' payload.data hp
    have hval : base64ToBuffer ("data:" ++ mime ++ ";base64," ++ payload) =
        decodeB64 payload.data := by
      rw [base64ToBuffer_of_contains _ hs, hdata, hsplit, hpay]
      rfl
    have hrhs : base64ToBuffer payload = decodeB64 payload.data :=
      base64ToBuffer_of_not_contains payload (hnc payload hp)
    exact ⟨hval.trans hrhs.symm, hval⟩

/-- C7 witness: the theorem applied at a concrete buffer and a concrete
data URL. -/
theorem claim_C7_witness :
    base64ToBuffer (bufferToBase64 [0, 1, 255, 77]) = [0, 1, 255, 77]
    ∧ base64ToBuffer ("data:" ++ "image/png" ++ ";base64," ++ "AAEC") = base64ToBuffer "AAEC" :=
  ⟨claim_C7.1 [0, 1, 255, 77] (by decide),
   (claim_C7.2 "image/png" "AAEC" (by decide) (by decide)).1⟩

theorem beq_colon_lower (c : Char) : (':' == lowerChar c) = (':' == c) := by
  unfold lowerChar
  split <;> rfl

theorem beq_slash_lower (c : Char) : ('/' == lowerChar c) = ('/' == c) := by
  unfold lowerChar
  split <;> rfl

theorem isPrefixOf_scheme_lower : ∀ l : List Char,
    List.isPrefixOf [':', '/', '/'] (l.map lowerChar) = List.isPrefixOf [':', '/', '/'] l
  | [] => rfl
  | [a] => by simp [List.isPrefixOf, beq_colon_lower]
  | [a, b] => by simp [List.isPrefixOf, beq_colon_lower, beq_slash_lower]
  | a :: b :: c :: t => by simp [List.isPrefixOf, beq_colon_lower, beq_slash_lower]

theorem hasSubstr_scheme_lower : ∀ l : List Char,
    hasSubstr (l.map lowerChar) [':', '/', '/'] = hasSubstr l [':', '/', '/']
  | [] => rfl
  | c :: t => by
    have h1 := isPrefixOf_scheme_lower (c :: t)
    have ih := hasSubstr_scheme_lower t
    simp only [List.map_cons] at h1 ⊢
    simp [hasSubstr, h1, ih]

theorem strContains_lower_scheme (url : String) :
    strContains (asciiLower url) "://" = strContains url "://" := by
  have e : "://".data = [':', '/', '/'] := rfl
  show hasSubstr (asciiLower url).data "://".data = hasSubstr url.data "://".data
  rw [e]
  exact hasSubstr_scheme_lower url.data

theorem isPrefixOf_cons_ne (p : Char) (ps : List Char) (c : Char) (t : List Char)
    (h : (p == c) = false) : List.isPrefixOf (p :: ps) (c :: t) = false := by
  simp [List.isPrefixOf] at h ⊢
  intro hc
  exact absurd hc h

theorem isPrefixOf_singleton {c : Char} {l : List Char}
    (h : List.isPrefixOf [c] l = true) : ∃ t, l = c :: t := by
  match l with
  | [] => simp [List.isPrefixOf] at h
  | b :: t =>
    simp [List.isPrefixOf] at h
    exact ⟨t, by rw [h]⟩

theorem validate_strip (t : List Char) (ht : t ≠ []) :
    validatePathname (String.mk ('/' :: t)) = validatePathname (String.mk t) := by
  have e1 : "../".data = ['.', '.', '/'] := rfl
  have e2 : "..\\".data = ['.', '.', '\\'] := rfl
  have e3 : "\x00".data = ['\x00'] := rfl
  have h1 : hasSubstr ('/' :: t) "../".data = hasSubstr t "../".data := by
    rw [e1]
    simp only [hasSubstr]
    rw [isPrefixOf_cons_ne '.' ['.', '/'] '/' t rfl]
    simp
  have h2 : hasSubstr ('/' :: t) "..\\".data = hasSubstr t "..\\".data := by
    rw [e2]
    simp only [hasSubstr]
    rw [isPrefixOf_cons_ne '.' ['.', '\\'] '/' t rfl]
    simp
  have h3 : hasSubstr ('/' :: t) "\x00".data = hasSubstr t "\x00".data := by
    rw [e3]
    simp only [hasSubstr]
    rw [isPrefixOf_cons_ne '\x00' [] '/' t rfl]
    simp
  have hne1 : (String.mk ('/' :: t) = "") = False := by
    simp [str_eq_iff_data]
  have hne2 : (String.mk t = "") = False := by
    simp [str_eq_iff_data, ht]
  unfold validatePathname strContains
  dsimp only
  rw [h1, h2, h3]
  simp only [hne1, hne2, if_false]

/-- C3 (amended): for every NONEMPTY input that does not parse as a URL:
a scheme separator "://" fails with `MalformedInput`; otherwise a
domain-like shape fails with `SuspiciousPattern`; otherwise one leading
`/` is stripped, the empty stripped result fails with `EmptyPathname`, a
stripped result rejected by `validatePathname` fails with that validation
error, and in every remaining case the stripped input is returned
unchanged.  (The empty input is rejected by the top-level input guard with
the generic invalid-input error, not with `EmptyPathname`; see the
counterexample.) -/
theorem claim_C3 :
    ∀ url : String, url ≠ "" →
      (strContains url "://" = true →
        extractPathnameFromUrl url none = .error .malformedInput)
      ∧ (strContains url "://" = false → domainLike url = true →
        extractPathnameFromUrl url none = .error .suspiciousPattern)
      ∧ (strContains url "://" = false → domainLike url = false →
        (if "/".data.isPrefixOf url.data then String.mk (url.data.drop 1) else url) = "" →
        extractPathnameFromUrl url none = .error .emptyPathname)
      ∧ (∀ e : StorageErr, strContains url "://" = false → domainLike url = false →
        (if "/".data.isPrefixOf url.data then String.mk (url.data.drop 1) else url) ≠ "" →
        validatePathname
          (if "/".data.isPrefixOf url.data then String.mk (url.data.drop 1) else url) =
          .error e →
        extractPathnameFromUrl url none = .error e)
      ∧ (strContains url "://" = false → domainLike url = false →
        (if "/".data.isPrefixOf url.data then String.mk (url.data.drop 1) else url) ≠ "" →
        validatePathname
          (if "/".data.isPrefixOf url.data then String.mk (url.data.drop 1) else url) =
          .ok () →
        extractPathnameFromUrl url none =
          .ok (if "/".data.isPrefixOf url.data then String.mk (url.data.drop 1) else url)) := by
  intro url hurl
  have hlower := strContains_lower_scheme url
  refine ⟨?_, ?_, ?_, ?_, ?_⟩
  · intro hs
    unfold extractPathnameFromUrl
    simp [hurl, hlower, hs]
  · intro hs hd
    unfold extractPathnameFromUrl
    simp [hurl, hlower, hs, hd]
  · intro hs hd hempty
    by_cases hpre : "/".data.isPrefixOf url.data = true
    · obtain ⟨tl, htl⟩ := isPrefixOf_singleton hpre
      rw [if_pos hpre, htl] at hempty
      have htl0 : tl = [] := by
        have := (str_eq_iff_data _ _).mp hempty
        simpa using this
      have hu : url = "/" := by
        rw [str_eq_iff_data, htl, htl0]
      rw [hu]
      decide
    · rw [if_neg hpre] at hempty
      exact absurd hempty hurl
  · intro e hs hd hne hval
    have hvu : validatePathname url = .error e := by
      by_cases hpre : "/".data.isPrefixOf url.data = true
      · obtain ⟨tl, htl⟩ := isPrefixOf_singleton hpre
        rw [if_pos hpre, htl] at hval hne
        have htlne : tl ≠ [] := by
          intro h0
          exact hne (by rw [h0]; rfl)
        have hu : url = String.mk ('/' :: tl) := by
          rw [str_eq_iff_data]
          exact htl
        rw [hu, validate_strip tl htlne]
        exact hval
      · rw [if_neg hpre] at hval
        exact hval
    unfold extractPathnameFromUrl
    simp [hurl, hlower, hs, hd, hvu]
  · intro hs hd hne hval
    have hvu : validatePathname url = .ok () := by
      by_cases hpre : "/".data.isPrefixOf url.data = true
      · obtain ⟨tl, htl⟩ := isPrefixOf_singleton hpre
        rw [if_pos hpre, htl] at hval hne
        have htlne : tl ≠ [] := by
          intro h0
          exact hne (by rw [h0]; rfl)
        have hu : url = String.mk ('/' :: tl) := by
          rw [str_eq_iff_data]
          exact htl
        rw [hu, validate_strip tl htlne]
        exact hval
      · rw [if_neg hpre] at hval
        exact hval
    unfold extractPathnameFromUrl
    simp [hurl, hlower, hs, hd, hvu]
    simpa using hne

/-- C3 counterexample: the empty string does not parse as a URL, contains
no scheme separator, matches no domain shape, and strips to the empty
result, yet `extractPathnameFromUrl` rejects it with the generic top-guard
invalid-input error ("Invalid input: URL must be a non-empty string"), not
with the `EmptyPathname` error ("Invalid pathname: cannot be empty") the
claim assigns to an empty stripped result. -/
theorem claim_C3_counterexample :
    extractPathnameFromUrl "" none = .error .invalidInput
    ∧ extractPathnameFromUrl "" none ≠ .error .emptyPathname := by
  constructor
  · decide
  · decide

/-- C3 witness: the amended theorem applied at a disguised-URL input and
at a plain pathname with a leading separator. -/
theorem claim_C3_witness :
    extractPathnameFromUrl "1http://x" none = .error .malformedInput
    ∧ extractPathnameFromUrl "/docs/report.pdf" none = .ok "docs/report.pdf" := by
  constructor
  · exact (claim_C3 "1http://x" (by decide)).1 (by decide)
  · exact (claim_C3 "/docs/report.pdf" (by decide)).2.2.2.2
      (by decide) (by decide) (by decide) (by decide)
